import Mathlib

/-!
Verification of the cosmic-ray mutation-testing orchestrator
(`cosmic_ray/cli.py` and the session/work-database machinery it drives).

The data model and operations are embedded shallowly:

* `WorkItemKey`, `WorkItem`, `WorkResult`, `WorkDB` mirror the spec's data
  model (§3): a session database is a list of work items plus an association
  list from item key to result.
* Operations whose source lives in `cli.py` (`_get_db_name`, the timeout
  computation of `handle_init`, the stdout discipline of `handle_worker`,
  the `with use_db(...)` scoping of each handler)
  are translated from that source.
* Operations implemented in modules not present here
  (`cosmic_ray.work_db`, `cosmic_ray.commands`, `cosmic_ray.worker`,
  `cosmic_ray.timing`) are modelled from the spec; each such definition
  says so in its doc comment.

Machine floats of the source are modelled as `ℚ`; none of the verified
properties depends on rounding.
-/

namespace CosmicRay

/-! ### Data model -/

/-- Identity key of one unit of mutation-test work: the spec's
(module, operator, occurrence) triple (§3, WorkItem invariant). -/
structure WorkItemKey where
  module_name : String
  op_name : String
  occurrence : Nat
deriving DecidableEq, Repr

/-- A work item: its identity key plus the common test configuration
(§3 WorkItem: `test_runner`, `test_args`, `timeout`). -/
structure WorkItem where
  key : WorkItemKey
  test_runner : String
  test_args : List String
  timeout : ℚ
deriving DecidableEq, Repr

/-- Three-way outcome classification of running tests against a mutant
(§3 WorkResult, §4.5). -/
inductive Outcome where
  | killed
  | survived
  | exception
deriving DecidableEq, Repr

/-- Outcome of executing a WorkItem: the outcome kind plus its payload. -/
structure WorkResult where
  outcome : Outcome
  data : String
deriving DecidableEq, Repr

/-- Modelled from the spec: the Work Database of `cosmic_ray.work_db`
(not present in the sources). A persisted mapping from WorkItem identity
to (WorkItem, optional WorkResult) plus session metadata (§3, §4.1);
results are an association list keyed by `WorkItemKey`. -/
structure WorkDB where
  items : List WorkItem
  results : List (WorkItemKey × WorkResult)
  test_runner : String
  test_args : List String
  timeout : ℚ
deriving DecidableEq, Repr

namespace WorkDB

/-- A freshly established, empty database. -/
def empty : WorkDB := ⟨[], [], "", [], 0⟩

/-- The recorded result for a key, if any. -/
def lookupResult (db : WorkDB) (k : WorkItemKey) : Option WorkResult :=
  (db.results.find? fun p => p.1 == k).map (fun p => p.2)

/-- Modelled from the spec: `add_result(item_key, result)` of §4.1 — an
idempotent upsert keyed by (module, operator, occurrence); overwriting an
existing result is allowed and the WorkItem itself is never dropped. -/
def add_result (db : WorkDB) (k : WorkItemKey) (r : WorkResult) : WorkDB :=
  { db with results := (k, r) :: db.results.filter fun p => !(p.1 == k) }

/-- Modelled from the spec: `pending_items()` of §4.1 — the work items
without a recorded result. -/
def pending_items (db : WorkDB) : List WorkItem :=
  db.items.filter fun it => (db.lookupResult it.key).isNone

/-- Modelled from the spec: `clear_and_set(items, test_runner, test_args,
timeout)` of §4.1 — atomically replaces all work items and metadata and
destroys any existing results. -/
def clear_and_set (_db : WorkDB) (its : List WorkItem) (runner : String)
    (args : List String) (tmo : ℚ) : WorkDB :=
  { items := its, results := [], test_runner := runner, test_args := args,
    timeout := tmo }

end WorkDB

/-- Modelled from the spec: the work-item enumeration of the Session
Initializer (§4.3, steps 1–2, implemented in `cosmic_ray.commands.init`,
not present in the sources): one WorkItem per
(module, operator, occurrence-index < count) triple, with the common
`test_runner`, `test_args`, `timeout` attached. `cnt` is the operator
capability `occurrence_count` (§6). -/
def initItems (mods ops : List String) (cnt : String → String → Nat)
    (runner : String) (args : List String) (tmo : ℚ) : List WorkItem :=
  mods.flatMap fun m => ops.flatMap fun op =>
    (List.range (cnt m op)).map fun i => ⟨⟨m, op, i⟩, runner, args, tmo⟩

/-- Modelled from the spec: `initialize_session` / `cosmic_ray.commands.init`
(§4.3, not present in the sources): generate the work items and replace the
session's entire contents via `clear_and_set`. -/
def init_session (mods ops : List String) (cnt : String → String → Nat)
    (runner : String) (args : List String) (tmo : ℚ) (db : WorkDB) : WorkDB :=
  db.clear_and_set (initItems mods ops cnt runner args tmo) runner args tmo

/-- Number of recorded results classified with outcome `o`. -/
def countOutcome (db : WorkDB) (o : Outcome) : Nat :=
  (db.results.filter fun p => p.2.outcome == o).length

/-- Modelled from the spec: `survival_rate(db)` of §4.6
(`cosmic_ray.commands.survival_rate`, not present in the sources):
`survived_count / (survived_count + killed_count)` over items that have a
non-`exception` result. -/
def survival_rate (db : WorkDB) : ℚ :=
  (countOutcome db .survived : ℚ) /
    ((countOutcome db .survived : ℚ) + (countOutcome db .killed : ℚ))

/-! ### The worker entry point's output discipline (`handle_worker`)

The source `handle_worker` in `cli.py` redirects `sys.stdout` to
`os.devnull` while `cosmic_ray.worker.worker` runs (mutation + test
execution), and afterwards writes exactly one
`json.dumps((result_type, data))` payload to the real `sys.stdout`.
We model the process's write events explicitly. -/

/-- A single write event of the worker process: either to the real standard
output or to the null device it temporarily redirects to. -/
inductive WriteEvent where
  | toStdout (s : String)
  | toDevnull (s : String)
deriving DecidableEq, Repr

/-- The payload a caller reading the process's standard output sees. -/
def stdoutPayload (ws : List WriteEvent) : List String :=
  ws.filterMap fun w =>
    match w with
    | .toStdout s => some s
    | .toDevnull _ => none

/-- Model of `json.dumps((result_type, data))`: the serialized
(outcome_kind, data) pair. -/
def jsonDumpsPair (a b : String) : String :=
  "[\"" ++ a ++ "\", \"" ++ b ++ "\"]"

/-- What the worker invocation does, observationally: the lines the mutation
and test run try to print, and the (result_type, data) pair
`cosmic_ray.worker.worker` returns (`data` already as its `str()` form). -/
structure WorkerBehavior where
  printed : List String
  result_type : String
  data : String

/-- Translation of `handle_worker`, `cli.py` lines 286–297: inside
`with open(os.devnull, 'w') as devnull, redirect_stdout(devnull)` the worker
runs, so everything it prints goes to the null device; after the block the
single serialized pair is written to the real stdout. -/
def handle_worker (wb : WorkerBehavior) : List WriteEvent :=
  (wb.printed.map WriteEvent.toDevnull) ++
    [WriteEvent.toStdout (jsonDumpsPair wb.result_type wb.data)]

/-! ### The Executor and the Worker protocol -/

/-- The Executor's loop body over an explicit worklist: record, for each
item in turn, the result the Worker protocol `w` returns for it. -/
def executeItems (w : WorkItem → WorkResult) (db : WorkDB)
    (todo : List WorkItem) : WorkDB :=
  todo.foldl (fun d it => d.add_result it.key (w it)) db

/-- Modelled from the spec: `execute_session` / `cosmic_ray.commands.execute`
(§4.4, not present in the sources): repeatedly take one pending WorkItem,
execute it via the Worker protocol, record the returned WorkResult;
terminate when `pending_items()` yields no more items. -/
def execute_session (w : WorkItem → WorkResult) (db : WorkDB) : WorkDB :=
  executeItems w db db.pending_items

/-- An `execute_session` run interrupted (process killed) after the first
`k` pending items have received results (§4.4 restartability). -/
def execute_interrupted (w : WorkItem → WorkResult) (k : Nat) (db : WorkDB) :
    WorkDB :=
  executeItems w db (db.pending_items.take k)

/-- Errors internal to one WorkItem's execution (§7: work-item errors and
test-execution errors). -/
inductive WorkerError where
  | noSuchOccurrence
  | moduleNotFound
  | runnerCrash (msg : String)
  | timeoutExceeded
deriving DecidableEq, Repr

/-- Verdict of a test run that completed cleanly. -/
inductive TestVerdict where
  | passed
  | failed
deriving DecidableEq, Repr

/-- Modelled from the spec: the Worker's classification step (§4.5 step 4,
§7; `cosmic_ray.worker.worker`, not present in the sources): a clean test
failure is `killed`, a clean pass is `survived`, and any internal error
collapses to an `exception` result carrying the captured error as payload —
it is returned as data, never raised. -/
def classifyRaw (describe : WorkerError → String) :
    Except WorkerError (TestVerdict × String) → WorkResult
  | .ok (.failed, out) => ⟨.killed, out⟩
  | .ok (.passed, out) => ⟨.survived, out⟩
  | .error e => ⟨.exception, describe e⟩

/-! ### The CLI layer: database naming, scoped acquisition, handlers -/

/-- Translation of `_get_db_name`, `cli.py` lines 101–102: the session's
backing database file name is the session name followed by `.json`. -/
def get_db_name (session_name : String) : String := session_name ++ ".json"

/-- Mode of `use_db` (§4.1): `create` establishes a fresh database,
`openExisting` (the source's `WorkDB.Mode.open`) requires one to exist. -/
inductive Mode where
  | create
  | openExisting
deriving DecidableEq, Repr

/-- Observable events on the work database: scoped acquisition and
release. -/
inductive DbEvent where
  | acquired
  | released
deriving DecidableEq, Repr

/-- Errors of a CLI operation: the database does not exist
(`NotFoundError`, §4.1) or the operation's body failed. -/
inductive OpError where
  | notFound
  | bodyFailed
deriving DecidableEq, Repr

/-- The filesystem visible to the CLI: the stored session databases,
keyed by file name. -/
abbrev FileSys := List (String × WorkDB)

/-- Store `db` under `name`, replacing any previous database of that
name. -/
def fsUpdate (fs : FileSys) (name : String) (db : WorkDB) : FileSys :=
  (name, db) :: fs.filter fun p => !(p.1 == name)

/-- The database stored under `name`, if any. -/
def fsLookup (fs : FileSys) (name : String) : Option WorkDB :=
  (fs.find? fun p => p.1 == name).map (fun p => p.2)

/-- Observable outcome of one CLI operation against the work database:
whether it succeeded, the resulting filesystem, the database
acquisition/release events, and the database file names it addressed. -/
structure OpResult where
  outcome : Except OpError Unit
  fs : FileSys
  events : List DbEvent
  accessed : List String
deriving Repr

/-- Modelled from the spec: `use_db` of `cosmic_ray.work_db` (not present
in the sources) combined with the `with use_db(...) as db:` statement each
handler wraps its body in: scoped acquisition with guaranteed release,
including when the body fails (§3 Work Database, §4.1). In `create` mode a
fresh database is established (truncating any prior one of that name); in
`openExisting` mode a missing database is a `NotFoundError` and nothing is
created. -/
def use_db (fs : FileSys) (name : String) (mode : Mode)
    (body : WorkDB → Except Unit WorkDB) : OpResult :=
  match mode with
  | .create =>
    match body WorkDB.empty with
    | .ok db2 => ⟨.ok (), fsUpdate fs name db2, [.acquired, .released], [name]⟩
    | .error _ => ⟨.error .bodyFailed, fs, [.acquired, .released], [name]⟩
  | .openExisting =>
    match fs.find? fun p => p.1 == name with
    | none => ⟨.error .notFound, fs, [], [name]⟩
    | some p =>
      match body p.2 with
      | .ok db2 => ⟨.ok (), fsUpdate fs name db2, [.acquired, .released], [name]⟩
      | .error _ => ⟨.error .bodyFailed, fs, [.acquired, .released], [name]⟩

/-- Translation of `handle_exec`, `cli.py` lines 157–168: derive the
database name with `_get_db_name`, open it in open-existing mode, and run
`cosmic_ray.commands.execute` on it. -/
def handle_exec (w : WorkItem → WorkResult) (fs : FileSys)
    (session_name : String) : OpResult :=
  use_db fs (get_db_name session_name) .openExisting
    (fun db => .ok (execute_session w db))

/-- Translation of `handle_report`, `cli.py` lines 191–202: derive the
database name with `_get_db_name` and open it in open-existing mode; the
report is printed from the database, which is read, not modified. -/
def handle_report (fs : FileSys) (session_name : String) : OpResult :=
  use_db fs (get_db_name session_name) .openExisting (fun db => .ok db)

/-- Translation of `handle_survival_rate`, `cli.py` lines 205–214: derive
the database name with `_get_db_name` and open it in open-existing mode;
the rate (`survival_rate`) is printed from the database, which is read,
not modified. -/
def handle_survival_rate (fs : FileSys) (session_name : String) : OpResult :=
  use_db fs (get_db_name session_name) .openExisting (fun db => .ok db)

/-- Configuration errors of `handle_init` (§7): a malformed `--timeout` or
`--baseline` value (Python's `float()` raises `ValueError`), or neither
option supplied. -/
inductive ConfigError where
  | malformedNumber
  | missingOption
deriving DecidableEq, Repr

/-- The part of the `docopt` configuration of `handle_init` the model uses:
the session name, the two mutually exclusive timeout options (as the raw
option strings), the test runner and its arguments. -/
structure InitConfig where
  session_name : String
  timeoutOpt : Option String
  baselineOpt : Option String
  test_runner : String
  test_args : List String

/-- Translation of the timeout computation of `handle_init`, `cli.py`
lines 127–137: an absolute `--timeout` is parsed with `float()` and used as
is, with no baseline run; otherwise `--baseline` is parsed with `float()`
and, only after that parse succeeds, multiplied by the measured duration of
one baseline run (`cosmic_ray.timing.run_baseline`, modelled from the spec
§4.2 as the measured duration `baselineDuration`). `parseFloat` models
Python's `float()`, with `none` for a raised `ValueError`. Returns the
timeout and the number of baseline runs performed. -/
def computeTimeout (parseFloat : String → Option ℚ)
    (timeoutOpt baselineOpt : Option String) (baselineDuration : ℚ) :
    Except ConfigError (ℚ × Nat) :=
  match timeoutOpt with
  | some t =>
    match parseFloat t with
    | some v => .ok (v, 0)
    | none => .error .malformedNumber
  | none =>
    match baselineOpt with
    | some b =>
      match parseFloat b with
      | some m => .ok (m * baselineDuration, 1)
      | none => .error .malformedNumber
    | none => .error .missingOption

/-- Observable outcome of `handle_init`: whether it failed, the resulting
filesystem, the number of baseline runs, and the database events and file
accesses performed. -/
structure InitOutcome where
  result : Except ConfigError Unit
  fs : FileSys
  baselineRuns : Nat
  events : List DbEvent
  accessed : List String

/-- Translation of `handle_init`, `cli.py` lines 105–154: the timeout is
computed first (lines 127–137); only then is the database name derived with
`_get_db_name` and the database opened with `use_db`, inside which
`cosmic_ray.commands.init` replaces the session's contents (§4.3).
`mods` stands for the module set `find_modules` discovers and `ops`/`cnt`
for the operator plugin registry (external collaborators, §6). -/
def handle_init (parseFloat : String → Option ℚ) (cfg : InitConfig)
    (baselineDuration : ℚ) (mods ops : List String)
    (cnt : String → String → Nat) (fs : FileSys) : InitOutcome :=
  match computeTimeout parseFloat cfg.timeoutOpt cfg.baselineOpt
      baselineDuration with
  | .error e => ⟨.error e, fs, 0, [], []⟩
  | .ok (tmo, runs) =>
    let r := use_db fs (get_db_name cfg.session_name) .create
      (fun db => .ok (init_session mods ops cnt cfg.test_runner
        cfg.test_args tmo db))
    ⟨.ok (), r.fs, runs, r.events, r.accessed⟩

/-! ### Concrete test data used by witnesses -/

/-- A session database used as concrete test data: six items whose results
are 3 `killed`, 2 `survived` and 1 `exception`. -/
def exampleDB : WorkDB :=
  let mk : Nat → WorkItem := fun i => ⟨⟨"m", "op", i⟩, "unittest", [], 10⟩
  { items := [mk 0, mk 1, mk 2, mk 3, mk 4, mk 5]
    results := [(⟨"m", "op", 0⟩, ⟨.killed, "t0"⟩),
                (⟨"m", "op", 1⟩, ⟨.killed, "t1"⟩),
                (⟨"m", "op", 2⟩, ⟨.killed, "t2"⟩),
                (⟨"m", "op", 3⟩, ⟨.survived, "t3"⟩),
                (⟨"m", "op", 4⟩, ⟨.survived, "t4"⟩),
                (⟨"m", "op", 5⟩, ⟨.exception, "boom"⟩)]
    test_runner := "unittest", test_args := [], timeout := 10 }

/-- A freshly initialized two-item session with no recorded results. -/
def freshDB : WorkDB :=
  init_session ["m"] ["op"] (fun _ _ => 2) "unittest" [] 10 WorkDB.empty

/-- A worker stub whose mutants always survive. -/
def wOk : WorkItem → WorkResult := fun _ => ⟨.survived, "ok"⟩

/-- A concrete error description function for the worker model. -/
def describeErr : WorkerError → String := fun e =>
  match e with
  | .noSuchOccurrence => "no such occurrence"
  | .moduleNotFound => "module not found"
  | .runnerCrash m => m
  | .timeoutExceeded => "timeout"

/-- A worker raw-outcome stub: occurrence 0 times out, the others pass. -/
def rawDemo : WorkItem → Except WorkerError (TestVerdict × String) := fun it =>
  if it.key.occurrence == 0 then .error .timeoutExceeded
  else .ok (.passed, "all pass")

/-- A concrete `float()` stub: parses exactly `"2.0"` and `"10.0"`. -/
def pfDemo : String → Option ℚ := fun s =>
  if s = "2.0" then some 2 else if s = "10.0" then some 10 else none

/-- An init configuration supplying a baseline multiplier. -/
def cfgBaseline : InitConfig := ⟨"sess", none, some "2.0", "unittest", []⟩

/-- An init configuration supplying a malformed absolute timeout. -/
def cfgBad : InitConfig := ⟨"sess", some "bogus", none, "unittest", []⟩

/-! ### Association-list and executor lemmas -/

theorem lookupResult_add_self (db : WorkDB) (k : WorkItemKey) (r : WorkResult) :
    (db.add_result k r).lookupResult k = some r := by
  simp [WorkDB.add_result, WorkDB.lookupResult]

theorem find?_filter_ne (l : List (WorkItemKey × WorkResult)) (k k' : WorkItemKey)
    (h : k' ≠ k) :
    (l.filter fun p => !(p.1 == k)).find? (fun p => p.1 == k') =
      l.find? (fun p => p.1 == k') := by
  induction l with
  | nil => rfl
  | cons p t ih =>
    have hkk : ¬(k = k') := fun hh => h hh.symm
    rcases eq_or_ne p.1 k with hpk | hpk
    · have hne : ¬(p.1 = k') := fun hh => h (hh ▸ hpk ▸ rfl)
      simp [List.filter_cons, hpk, List.find?_cons, hne, hkk, ih]
    · by_cases hpk' : p.1 = k'
      · simp [List.filter_cons, hpk, List.find?_cons, hpk', h, ih]
      · simp [List.filter_cons, hpk, List.find?_cons, hpk', ih]

theorem lookupResult_add_ne (db : WorkDB) (k k' : WorkItemKey) (r : WorkResult)
    (h : k' ≠ k) :
    (db.add_result k r).lookupResult k' = db.lookupResult k' := by
  have hk : ¬(k = k') := fun hh => h hh.symm
  simp [WorkDB.add_result, WorkDB.lookupResult, List.find?_cons, hk,
    find?_filter_ne db.results k k' h]

theorem items_executeItems (w : WorkItem → WorkResult) (db : WorkDB)
    (L : List WorkItem) : (executeItems w db L).items = db.items := by
  induction L generalizing db with
  | nil => rfl
  | cons a t ih => simpa [executeItems] using ih (db.add_result a.key (w a))

theorem lookup_executeItems_not_mem (w : WorkItem → WorkResult) (db : WorkDB)
    (L : List WorkItem) (k : WorkItemKey) (h : ∀ it ∈ L, it.key ≠ k) :
    (executeItems w db L).lookupResult k = db.lookupResult k := by
  induction L generalizing db with
  | nil => rfl
  | cons a t ih =>
    have ha : a.key ≠ k := h a (List.mem_cons_self a t)
    have step : executeItems w db (a :: t) =
        executeItems w (db.add_result a.key (w a)) t := rfl
    rw [step, ih _ (fun it hit => h it (List.mem_cons_of_mem _ hit))]
    exact lookupResult_add_ne _ _ _ _ ha.symm

theorem lookup_executeItems_mem (w : WorkItem → WorkResult) (db : WorkDB)
    (L : List WorkItem) (hnd : (L.map WorkItem.key).Nodup)
    (it : WorkItem) (h : it ∈ L) :
    (executeItems w db L).lookupResult it.key = some (w it) := by
  induction L generalizing db with
  | nil => cases h
  | cons a t ih =>
    rw [List.map_cons, List.nodup_cons] at hnd
    have step : executeItems w db (a :: t) =
        executeItems w (db.add_result a.key (w a)) t := rfl
    rw [step]
    rcases List.mem_cons.mp h with rfl | hmem
    · have hkeys : ∀ b ∈ t, b.key ≠ it.key := by
        intro b hb heq
        exact hnd.1 (heq ▸ List.mem_map_of_mem _ hb)
      rw [lookup_executeItems_not_mem w _ t it.key hkeys]
      exact lookupResult_add_self ..
    · exact ih _ hnd.2 hmem

theorem pending_keys_nodup (db : WorkDB)
    (hnd : (db.items.map WorkItem.key).Nodup) :
    (db.pending_items.map WorkItem.key).Nodup :=
  hnd.sublist ((List.filter_sublist _).map _)

theorem filter_not_mem_take {α : Type} [DecidableEq α] (L : List α) (K : Nat)
    (h : L.Nodup) :
    L.filter (fun x => decide (x ∉ L.take K)) = L.drop K := by
  have hdis : List.Disjoint (L.take K) (L.drop K) :=
    List.disjoint_take_drop h (le_refl K)
  have h1 : (L.take K).filter (fun x => decide (x ∉ L.take K)) = [] :=
    List.filter_eq_nil_iff.mpr (fun a ha => by simpa using ha)
  have h2 : (L.drop K).filter (fun x => decide (x ∉ L.take K)) = L.drop K :=
    List.filter_eq_self.mpr (fun a ha => by simpa using fun hmem => hdis hmem ha)
  have key : L.filter (fun x => decide (x ∉ L.take K)) =
      (L.take K ++ L.drop K).filter (fun x => decide (x ∉ L.take K)) := by
    rw [List.take_append_drop]
  rw [key, List.filter_append, h1, h2, List.nil_append]

theorem pending_executeItems_take (w : WorkItem → WorkResult) (db : WorkDB)
    (K : Nat) (hnd : (db.items.map WorkItem.key).Nodup) :
    (executeItems w db (db.pending_items.take K)).pending_items =
      db.pending_items.drop K := by
  have htake : List.Sublist (db.pending_items.take K) db.pending_items :=
    List.take_sublist _ _
  have htk : ((db.pending_items.take K).map WorkItem.key).Nodup :=
    (pending_keys_nodup db hnd).sublist (htake.map _)
  have step : ∀ it ∈ db.items,
      ((executeItems w db (db.pending_items.take K)).lookupResult it.key).isNone =
        (decide (it ∉ db.pending_items.take K) &&
          (db.lookupResult it.key).isNone) := by
    intro it hit
    by_cases hmem : it ∈ db.pending_items.take K
    · rw [lookup_executeItems_mem w db _ htk it hmem]
      simp [hmem]
    · have hkeys : ∀ b ∈ db.pending_items.take K, b.key ≠ it.key := by
        intro b hb heq
        have hbI : b ∈ db.items :=
          (List.filter_sublist _).subset (htake.subset hb)
        have hbit : b = it := List.inj_on_of_nodup_map hnd hbI hit heq
        exact hmem (hbit ▸ hb)
      rw [lookup_executeItems_not_mem w db _ it.key hkeys]
      simp [hmem]
  have hpnd : db.pending_items.Nodup :=
    (List.Nodup.of_map _ hnd).filter _
  calc (executeItems w db (db.pending_items.take K)).pending_items
      = (executeItems w db (db.pending_items.take K)).items.filter
          (fun it => ((executeItems w db
            (db.pending_items.take K)).lookupResult it.key).isNone) := rfl
    _ = db.items.filter
          (fun it => ((executeItems w db
            (db.pending_items.take K)).lookupResult it.key).isNone) := by
        rw [items_executeItems]
    _ = db.items.filter
          (fun it => decide (it ∉ db.pending_items.take K) &&
            (db.lookupResult it.key).isNone) := List.filter_congr step
    _ = (db.items.filter (fun it => (db.lookupResult it.key).isNone)).filter
          (fun it => decide (it ∉ db.pending_items.take K)) := by
        rw [List.filter_filter]
    _ = db.pending_items.filter
          (fun it => decide (it ∉ db.pending_items.take K)) := rfl
    _ = db.pending_items.drop K := filter_not_mem_take _ K hpnd

theorem pending_execute_session (w : WorkItem → WorkResult) (db : WorkDB)
    (hnd : (db.items.map WorkItem.key).Nodup) :
    (execute_session w db).pending_items = [] := by
  have h := pending_executeItems_take w db db.pending_items.length hnd
  simpa [execute_session, List.take_length, List.drop_length] using h

/-! ### CLI-layer lemmas -/

theorem timeout_initItems (mods ops : List String)
    (cnt : String → String → Nat) (runner : String) (args : List String)
    (tmo : ℚ) :
    ∀ it ∈ initItems mods ops cnt runner args tmo, it.timeout = tmo := by
  intro it hit
  simp only [initItems, List.mem_flatMap, List.mem_map, List.mem_range] at hit
  obtain ⟨m, _, op, _, i, _, rfl⟩ := hit
  rfl

theorem fsLookup_fsUpdate (fs : FileSys) (name : String) (db : WorkDB) :
    fsLookup (fsUpdate fs name db) name = some db := by
  simp [fsLookup, fsUpdate, List.find?_cons]

theorem accessed_use_db (fs : FileSys) (name : String) (mode : Mode)
    (body : WorkDB → Except Unit WorkDB) :
    (use_db fs name mode body).accessed = [name] := by
  cases mode with
  | create => cases hb : body WorkDB.empty <;> simp [use_db, hb]
  | openExisting =>
    cases hf : fs.find? fun p => p.1 == name with
    | none => simp [use_db, hf]
    | some p => cases hb : body p.2 <;> simp [use_db, hf, hb]

theorem use_db_events (fs : FileSys) (name : String) (mode : Mode)
    (body : WorkDB → Except Unit WorkDB) :
    (use_db fs name mode body).events = [] ∨
    (use_db fs name mode body).events = [DbEvent.acquired, DbEvent.released] := by
  cases mode with
  | create => cases hb : body WorkDB.empty <;> simp [use_db, hb]
  | openExisting =>
    cases hf : fs.find? fun p => p.1 == name with
    | none => simp [use_db, hf]
    | some p => cases hb : body p.2 <;> simp [use_db, hf, hb]

theorem count_balanced_of_events (evs : List DbEvent)
    (h : evs = [] ∨ evs = [DbEvent.acquired, DbEvent.released]) :
    evs.count DbEvent.acquired = evs.count DbEvent.released := by
  rcases h with h | h <;> simp [h]

/-! ### The claims -/

/-- C1: interrupting `execute_session` after the first K pending items have
received results and re-invoking it executes only the N−K items still
lacking a result (the resumed worklist is exactly the original pending list
minus its first K items), records and preserves each of the first K results
unchanged, never re-executes those K items, and finishes with no pending
items. -/
theorem exec_resume_idempotent (w : WorkItem → WorkResult) (db : WorkDB)
    (K : Nat) (hnd : (db.items.map WorkItem.key).Nodup) :
    (execute_interrupted w K db).pending_items = db.pending_items.drop K ∧
    (execute_interrupted w K db).pending_items.length =
      db.pending_items.length - K ∧
    (∀ it ∈ db.pending_items.take K,
      (execute_interrupted w K db).lookupResult it.key = some (w it) ∧
      (execute_session w (execute_interrupted w K db)).lookupResult it.key =
        some (w it) ∧
      it ∉ (execute_interrupted w K db).pending_items) ∧
    (execute_session w (execute_interrupted w K db)).pending_items = [] := by
  have hpend : (execute_interrupted w K db).pending_items =
      db.pending_items.drop K :=
    pending_executeItems_take w db K hnd
  have hnd1 : ((execute_interrupted w K db).items.map WorkItem.key).Nodup := by
    rw [show (execute_interrupted w K db).items = db.items from
      items_executeItems ..]
    exact hnd
  have htk : ((db.pending_items.take K).map WorkItem.key).Nodup :=
    (pending_keys_nodup db hnd).sublist ((List.take_sublist _ _).map _)
  have hdis : List.Disjoint (db.pending_items.take K) (db.pending_items.drop K) :=
    List.disjoint_take_drop ((List.Nodup.of_map _ hnd).filter _) (le_refl K)
  refine ⟨hpend, by rw [hpend, List.length_drop], ?_,
    pending_execute_session w _ hnd1⟩
  intro it hit
  have h1 : (execute_interrupted w K db).lookupResult it.key = some (w it) :=
    lookup_executeItems_mem w db _ htk it hit
  have hnotdrop : it ∉ db.pending_items.drop K := fun hmem => hdis hit hmem
  have hkeys : ∀ b ∈ (execute_interrupted w K db).pending_items,
      b.key ≠ it.key := by
    intro b hb heq
    rw [hpend] at hb
    have hbI : b ∈ db.items :=
      (List.filter_sublist _).subset (List.drop_subset _ _ hb)
    have hitI : it ∈ db.items :=
      (List.filter_sublist _).subset (List.take_subset _ _ hit)
    have hbit : b = it := List.inj_on_of_nodup_map hnd hbI hitI heq
    exact hnotdrop (hbit ▸ hb)
  have h2 : (execute_session w (execute_interrupted w K db)).lookupResult
      it.key = some (w it) := by
    show (executeItems w (execute_interrupted w K db)
      ((execute_interrupted w K db).pending_items)).lookupResult it.key =
        some (w it)
    rw [lookup_executeItems_not_mem w _ _ it.key hkeys]
    exact h1
  exact ⟨h1, h2, fun hmem => hnotdrop (hpend ▸ hmem)⟩

/-- Witness for C1: a fresh two-item session interrupted after one item;
one item is left to do and the resumed run finishes everything. -/
theorem exec_resume_idempotent_witness :
    (freshDB.items.map WorkItem.key).Nodup ∧
    (execute_interrupted wOk 1 freshDB).pending_items.length = 1 ∧
    (execute_session wOk (execute_interrupted wOk 1 freshDB)).pending_items =
      [] := by
  have h := exec_resume_idempotent wOk freshDB 1 (by decide)
  exact ⟨by decide, by rw [h.2.1]; decide, h.2.2.2⟩

/-- C2: re-running session initialization with identical inputs empties the
stored result set and reproduces the item set of a single run; every
previously stored WorkResult is discarded. -/
theorem init_session_destroys_results (mods ops : List String)
    (cnt : String → String → Nat) (runner : String) (args : List String)
    (tmo : ℚ) (db : WorkDB) :
    (init_session mods ops cnt runner args tmo db).results = [] ∧
    (init_session mods ops cnt runner args tmo
        (init_session mods ops cnt runner args tmo db)).results = [] ∧
    (init_session mods ops cnt runner args tmo
        (init_session mods ops cnt runner args tmo db)).items =
      (init_session mods ops cnt runner args tmo db).items :=
  ⟨rfl, rfl, rfl⟩

/-- C3: `survival_rate` is `survived / (survived + killed)` over the
recorded results; `exception` results are not counted (adding one to a
session leaves the rate unchanged), and a session with 3 `killed`,
2 `survived` and 1 `exception` has rate `2/5 = 0.40`. -/
theorem survival_rate_ignores_exceptions :
    (∀ db : WorkDB, survival_rate db =
      (countOutcome db .survived : ℚ) /
        ((countOutcome db .survived : ℚ) + (countOutcome db .killed : ℚ))) ∧
    (∀ (db : WorkDB) (k : WorkItemKey) (d : String), db.lookupResult k = none →
      survival_rate (db.add_result k ⟨.exception, d⟩) = survival_rate db) ∧
    survival_rate exampleDB = 2/5 ∧ (2/5 : ℚ) = 0.40 := by
  refine ⟨fun _ => rfl, ?_, ?_, by norm_num⟩
  · intro db k d h
    have h0 : db.results.find? (fun p => p.1 == k) = none := by
      simpa [WorkDB.lookupResult] using h
    have hall := List.find?_eq_none.mp h0
    have hfilter : db.results.filter (fun p => !(p.1 == k)) = db.results := by
      apply List.filter_eq_self.mpr
      intro p hp
      simpa using hall p hp
    simp +decide [survival_rate, countOutcome, WorkDB.add_result, hfilter,
      List.filter_cons]
  · have hs : countOutcome exampleDB .survived = 2 := by decide
    have hk : countOutcome exampleDB .killed = 3 := by decide
    rw [survival_rate, hs, hk]
    norm_num

/-- Witness for C3: the exception-invariance clause applied to the concrete
session `exampleDB` and a fresh key. -/
theorem survival_rate_ignores_exceptions_witness :
    exampleDB.lookupResult ⟨"m", "op", 9⟩ = none ∧
    survival_rate (exampleDB.add_result ⟨"m", "op", 9⟩ ⟨.exception, "x"⟩) =
      survival_rate exampleDB :=
  ⟨by decide,
   survival_rate_ignores_exceptions.2.1 exampleDB ⟨"m", "op", 9⟩ "x" (by decide)⟩

/-- C4: the only payload `handle_worker` writes to the process's standard
output is the single serialized (outcome_kind, data) pair; whatever the
mutation and test execution print is diverted to the null device. -/
theorem handle_worker_stdout_exactly_payload (wb : WorkerBehavior) :
    stdoutPayload (handle_worker wb) =
      [jsonDumpsPair wb.result_type wb.data] := by
  unfold stdoutPayload handle_worker
  rw [List.filterMap_append, List.filterMap_map]
  simp [Function.comp]

/-- C5: when `handle_init` is given a baseline multiplier `m`, it performs
exactly one baseline run and stores timeout `m × baselineDuration` on every
work item; when given an absolute timeout `v`, it performs no baseline run
and stores `v`. -/
theorem init_timeout_derivation (parseFloat : String → Option ℚ)
    (cfg : InitConfig) (baselineDuration : ℚ) (mods ops : List String)
    (cnt : String → String → Nat) (fs : FileSys) :
    (∀ b m, cfg.timeoutOpt = none → cfg.baselineOpt = some b →
      parseFloat b = some m →
      (handle_init parseFloat cfg baselineDuration mods ops cnt
        fs).baselineRuns = 1 ∧
      (∀ db, fsLookup (handle_init parseFloat cfg baselineDuration mods ops
          cnt fs).fs (get_db_name cfg.session_name) = some db →
        ∀ it ∈ db.items, it.timeout = m * baselineDuration)) ∧
    (∀ t v, cfg.timeoutOpt = some t → parseFloat t = some v →
      (handle_init parseFloat cfg baselineDuration mods ops cnt
        fs).baselineRuns = 0 ∧
      (∀ db, fsLookup (handle_init parseFloat cfg baselineDuration mods ops
          cnt fs).fs (get_db_name cfg.session_name) = some db →
        ∀ it ∈ db.items, it.timeout = v)) := by
  constructor
  · intro b m ht hb hp
    constructor
    · simp only [handle_init, computeTimeout, ht, hb, hp, use_db]
    · intro db hdb it hit
      simp only [handle_init, computeTimeout, ht, hb, hp, use_db] at hdb
      rw [fsLookup_fsUpdate] at hdb
      cases hdb
      exact timeout_initItems mods ops cnt _ _ _ it hit
  · intro t v ht hp
    constructor
    · simp only [handle_init, computeTimeout, ht, hp, use_db]
    · intro db hdb it hit
      simp only [handle_init, computeTimeout, ht, hp, use_db] at hdb
      rw [fsLookup_fsUpdate] at hdb
      cases hdb
      exact timeout_initItems mods ops cnt _ _ _ it hit

/-- Witness for C5: the baseline branch at multiplier 2 and measured
duration 3 does one baseline run and stamps timeout 6 on the stored
items. -/
theorem init_timeout_derivation_witness :
    (handle_init pfDemo cfgBaseline 3 ["m"] ["op"] (fun _ _ => 1)
      []).baselineRuns = 1 ∧
    (∀ it ∈ (init_session ["m"] ["op"] (fun _ _ => 1) "unittest" []
        ((2 : ℚ) * 3) WorkDB.empty).items, it.timeout = (2 : ℚ) * 3) := by
  have h := (init_timeout_derivation pfDemo cfgBaseline 3 ["m"] ["op"]
    (fun _ _ => 1) []).1 "2.0" 2 rfl rfl (by decide)
  exact ⟨h.1, fun it hit => h.2 _ (by rfl) it hit⟩

/-- C6: any error internal to one work item's execution is classified as an
`exception` WorkResult and recorded as data; the Executor still records a
result for every pending item and finishes with no pending items, whatever
the per-item raw outcomes (including errors) are. -/
theorem worker_errors_become_results (describe : WorkerError → String)
    (rawOf : WorkItem → Except WorkerError (TestVerdict × String))
    (db : WorkDB) (hnd : (db.items.map WorkItem.key).Nodup) :
    (∀ e : WorkerError,
      (classifyRaw describe (.error e)).outcome = .exception) ∧
    (∀ it ∈ db.pending_items,
      (execute_session (fun it => classifyRaw describe (rawOf it))
        db).lookupResult it.key = some (classifyRaw describe (rawOf it))) ∧
    (execute_session (fun it => classifyRaw describe (rawOf it))
      db).pending_items = [] := by
  refine ⟨fun e => rfl, ?_, pending_execute_session _ db hnd⟩
  intro it hit
  exact lookup_executeItems_mem _ db _ (pending_keys_nodup db hnd) it hit

/-- Witness for C6: in a two-item session where occurrence 0 times out, the
run records an `exception` result for it and still completes. -/
theorem worker_errors_become_results_witness :
    (execute_session (fun it => classifyRaw describeErr (rawDemo it))
      freshDB).lookupResult ⟨"m", "op", 0⟩ =
        some ⟨.exception, "timeout"⟩ := by
  have h := (worker_errors_become_results describeErr rawDemo freshDB
    (by decide)).2.1 ⟨⟨"m", "op", 0⟩, "unittest", [], 10⟩ (by decide)
  exact h

/-- C7: a malformed `--timeout` or `--baseline` value makes `handle_init`
fail as a configuration error before any work is performed: the work
database is never opened, no database event happens, and the filesystem is
untouched. -/
theorem init_malformed_number_fatal (parseFloat : String → Option ℚ)
    (cfg : InitConfig) (baselineDuration : ℚ) (mods ops : List String)
    (cnt : String → String → Nat) (fs : FileSys)
    (h : (∃ t, cfg.timeoutOpt = some t ∧ parseFloat t = none) ∨
      (cfg.timeoutOpt = none ∧
        ∃ b, cfg.baselineOpt = some b ∧ parseFloat b = none)) :
    (handle_init parseFloat cfg baselineDuration mods ops cnt fs).result =
      .error .malformedNumber ∧
    (handle_init parseFloat cfg baselineDuration mods ops cnt fs).events =
      [] ∧
    (handle_init parseFloat cfg baselineDuration mods ops cnt fs).accessed =
      [] ∧
    (handle_init parseFloat cfg baselineDuration mods ops cnt fs).fs = fs := by
  rcases h with ⟨t, ht, hp⟩ | ⟨ht, b, hb, hp⟩
  · simp [handle_init, computeTimeout, ht, hp]
  · simp [handle_init, computeTimeout, ht, hb, hp]

/-- Witness for C7: the unparseable timeout string `"bogus"` fails the init
without touching the (empty) filesystem. -/
theorem init_malformed_number_fatal_witness :
    (handle_init pfDemo cfgBad 3 ["m"] ["op"] (fun _ _ => 1) []).result =
      .error .malformedNumber ∧
    (handle_init pfDemo cfgBad 3 ["m"] ["op"] (fun _ _ => 1) []).events = [] ∧
    (handle_init pfDemo cfgBad 3 ["m"] ["op"] (fun _ _ => 1) []).accessed =
      [] ∧
    (handle_init pfDemo cfgBad 3 ["m"] ["op"] (fun _ _ => 1) []).fs = [] :=
  init_malformed_number_fatal pfDemo cfgBad 3 ["m"] ["op"] (fun _ _ => 1) []
    (Or.inl ⟨"bogus", rfl, by decide⟩)

/-- C8: when no database exists for a session name, the exec, report and
survival-rate operations (all opening in open-existing mode) fail with
`NotFoundError` and create nothing. -/
theorem open_existing_missing_session (w : WorkItem → WorkResult)
    (fs : FileSys) (s : String) (h : ∀ p ∈ fs, p.1 ≠ get_db_name s) :
    (handle_exec w fs s).outcome = .error .notFound ∧
    (handle_exec w fs s).fs = fs ∧
    (handle_report fs s).outcome = .error .notFound ∧
    (handle_report fs s).fs = fs ∧
    (handle_survival_rate fs s).outcome = .error .notFound ∧
    (handle_survival_rate fs s).fs = fs := by
  have hfind : fs.find? (fun p => p.1 == get_db_name s) = none :=
    List.find?_eq_none.mpr (fun p hp => by simpa using h p hp)
  simp [handle_exec, handle_report, handle_survival_rate, use_db, hfind]

/-- Witness for C8: against an empty filesystem every open-existing
operation reports `NotFoundError`. -/
theorem open_existing_missing_session_witness :
    (handle_exec wOk [] "nosuch").outcome = .error .notFound ∧
    (handle_report [] "nosuch").outcome = .error .notFound ∧
    (handle_survival_rate [] "nosuch").outcome = .error .notFound := by
  have h := open_existing_missing_session wOk [] "nosuch" (by simp)
  exact ⟨h.1, h.2.2.1, h.2.2.2.2.1⟩

/-- C9: every database-touching CLI operation acquires the database at the
start and releases it at the end — the event trace of `use_db` is empty or
exactly acquire-then-release, whatever the body does (including failure),
and for each of the four handlers the acquire and release counts match, so
no code path leaves the database held. -/
theorem db_scoped_acquire_release :
    (∀ (fs : FileSys) (name : String) (mode : Mode)
      (body : WorkDB → Except Unit WorkDB),
      (use_db fs name mode body).events = [] ∨
      (use_db fs name mode body).events =
        [DbEvent.acquired, DbEvent.released]) ∧
    (∀ (w : WorkItem → WorkResult) (fs : FileSys) (s : String),
      (handle_exec w fs s).events.count DbEvent.acquired =
        (handle_exec w fs s).events.count DbEvent.released) ∧
    (∀ (fs : FileSys) (s : String),
      (handle_report fs s).events.count DbEvent.acquired =
        (handle_report fs s).events.count DbEvent.released) ∧
    (∀ (fs : FileSys) (s : String),
      (handle_survival_rate fs s).events.count DbEvent.acquired =
        (handle_survival_rate fs s).events.count DbEvent.released) ∧
    (∀ (parseFloat : String → Option ℚ) (cfg : InitConfig)
      (baselineDuration : ℚ) (mods ops : List String)
      (cnt : String → String → Nat) (fs : FileSys),
      (handle_init parseFloat cfg baselineDuration mods ops cnt
        fs).events.count DbEvent.acquired =
      (handle_init parseFloat cfg baselineDuration mods ops cnt
        fs).events.count DbEvent.released) := by
  refine ⟨use_db_events, ?_, ?_, ?_, ?_⟩
  · intro w fs s
    exact count_balanced_of_events _ (use_db_events ..)
  · intro fs s
    exact count_balanced_of_events _ (use_db_events ..)
  · intro fs s
    exact count_balanced_of_events _ (use_db_events ..)
  · intro parseFloat cfg baselineDuration mods ops cnt fs
    unfold handle_init
    cases hct : computeTimeout parseFloat cfg.timeoutOpt cfg.baselineOpt
        baselineDuration with
    | error e => simp
    | ok p =>
      obtain ⟨tmo, runs⟩ := p
      exact count_balanced_of_events _ (use_db_events ..)

/-- C10: every operation derives the backing database file name from the
session name through the one function `get_db_name` (session name followed
by `.json`): exec, report and survival-rate address exactly that file,
init addresses no other file, and the derivation is injective, so equal
session names address the same file and distinct names distinct files. -/
theorem db_name_derivation (w : WorkItem → WorkResult) (fs : FileSys)
    (s a b : String) (parseFloat : String → Option ℚ) (cfg : InitConfig)
    (baselineDuration : ℚ) (mods ops : List String)
    (cnt : String → String → Nat) (h : get_db_name a = get_db_name b) :
    a = b ∧
    (handle_exec w fs s).accessed = [get_db_name s] ∧
    (handle_report fs s).accessed = [get_db_name s] ∧
    (handle_survival_rate fs s).accessed = [get_db_name s] ∧
    (∀ n ∈ (handle_init parseFloat cfg baselineDuration mods ops cnt
      fs).accessed, n = get_db_name cfg.session_name) := by
  refine ⟨?_, accessed_use_db .., accessed_use_db .., accessed_use_db .., ?_⟩
  · have h2 : a.data ++ ".json".data = b.data ++ ".json".data := by
      simpa [get_db_name, String.data_append] using congrArg String.data h
    exact String.ext (List.append_cancel_right h2)
  · intro n hn
    unfold handle_init at hn
    cases hct : computeTimeout parseFloat cfg.timeoutOpt cfg.baselineOpt
        baselineDuration with
    | error e => rw [hct] at hn; simp at hn
    | ok p =>
      obtain ⟨tmo, runs⟩ := p
      rw [hct] at hn
      simp only [accessed_use_db] at hn
      simpa using hn

/-- Witness for C10: equal `get_db_name` outputs at a concrete pair, and
the file a concrete exec run addresses. -/
theorem db_name_derivation_witness :
    ("alpha" : String) = "alpha" ∧
    (handle_exec wOk [] "alpha").accessed = [get_db_name "alpha"] := by
  have h := db_name_derivation wOk [] "alpha" "alpha" "alpha" pfDemo
    cfgBaseline 3 ["m"] ["op"] (fun _ _ => 1) rfl
  exact ⟨h.1, h.2.1⟩

end CosmicRay
